import Mathlib

/-!
Verification of the PS3 firmware downloader pipeline.

Shallow embedding of `src/PS3_FW_Downloader.py`. The script walks a fixed
list of four catalog sections in an HTML document, and for each data row of
each section table extracts version / size / download url / md5 fields,
fetches the payload with a bounded retry loop (`download_with_retries`,
lines 61-74), streams chunks to a payload file while printing a progress
bar, and appends one log entry per row to an in-memory list that is finally
rendered, together with total/success/failure counts, into an HTML report
(`download_firmwares`, lines 77-182).

The embedding replaces the external effects by explicit data:
* the parsed document (`Soup`) maps a section label to the table that
  follows its span, when the span (and a following table) exists;
* network behaviour (`Net`) maps a url and an attempt index to the result
  of `requests.get` for that attempt;
* a streamed response (`Response`) carries the declared content-length, the
  chunk sizes yielded by `iter_content`, whether the stream ends cleanly,
  and the wall-clock seconds elapsed for the transfer;
* filesystem effects are recorded as a trace of `FsWrite` events, log
  output as `LogEvent` values, and Python exceptions as `PyErr` results.
-/

namespace PS3FW

/-- One `td` cell: its raw text, the `data-url` attribute of an inner
`button` when such a button with that attribute exists, and the `data-copy`
attribute of an inner `a` likewise. -/
structure Cell where
  text : String
  buttonDataUrl : Option String
  anchorDataCopy : Option String
deriving Repr, DecidableEq

/-- One `tr` of a section table, as its list of `td` cells. -/
abbrev Row := List Cell

/-- One section table: all of its rows, the header row included. -/
abbrev Table := List Row

/-- The parsed document. `soup label` models
`soup.find(span, string=label).find_next(table)` followed by `find_all(tr)`
(line 96-97): `none` when the span is missing or no table follows it (in
Python both make the chained call raise `AttributeError`). -/
abbrev Soup := String → Option Table

/-- A streamed HTTP response (the effectful parts of a `requests` response
that lines 113-131 consume). `streamOk = false` means iterating
`iter_content` raises a transport error after yielding `chunks`. -/
structure Response where
  contentLength : Option Nat
  chunks : List Nat
  streamOk : Bool
  elapsed : ℚ
deriving Repr, DecidableEq

/-- Result of one `requests.get` attempt together with `raise_for_status`:
either a streamable response, or a `RequestException` with its message. -/
inductive AttemptResult where
  | ok (resp : Response)
  | fail (reason : String)
deriving Repr, DecidableEq

/-- Network behaviour: what the attempt numbered `n` (0-based) of a GET
against a url does. -/
abbrev Net := String → Nat → AttemptResult

/-- An event on the observability side channel (the `logging` calls). -/
inductive LogEvent where
  | error (msg : String)
  | info (msg : String)
deriving Repr, DecidableEq

/-- Everything observable about one call of `download_with_retries`: the
returned response (`none` models Python returning `None`), the number of
`requests.get` attempts made, the list of `time.sleep` durations between
attempts, and the emitted log events. -/
structure FetchTrace where
  result : Option Response
  attempts : Nat
  sleeps : List Nat
  logs : List LogEvent
deriving Repr, DecidableEq

/-- Whether an attempt result is a transport failure. -/
def isFailA : AttemptResult → Bool
  | .fail _ => true
  | .ok _ => false

/-- The retry loop body of `download_with_retries` (lines 62-74), unrolled
on fuel; called with `attempt + fuel = retries` so that `fuel` counts the
loop iterations still available. On a failed attempt the code logs the
failure, and either sleeps `delay` seconds and retries (when
`attempt < retries - 1`) or logs exhaustion and returns `None`. -/
def fetchAttempts (net : Net) (url : String) (retries delay attempt : Nat) :
    Nat → FetchTrace
  | 0 => ⟨none, 0, [], []⟩
  | fuel + 1 =>
    match net url attempt with
    | .ok r => ⟨some r, 1, [], []⟩
    | .fail e =>
      let errLog := LogEvent.error
        ("Attempt " ++ toString (attempt + 1) ++ " failed: " ++ e)
      if attempt < retries - 1 then
        let rest := fetchAttempts net url retries delay (attempt + 1) fuel
        ⟨rest.result, rest.attempts + 1, delay :: rest.sleeps,
          errLog :: LogEvent.info
            ("Retrying in " ++ toString delay ++ " seconds...") :: rest.logs⟩
      else
        ⟨none, 1, [],
          [errLog, LogEvent.error "Max retries reached. Skipping this file."]⟩

/-- `download_with_retries(url, retries, delay)`, lines 61-74. -/
def download_with_retries (net : Net) (url : String) (retries delay : Nat) :
    FetchTrace :=
  fetchAttempts net url retries delay 0 retries

/-- Default `retries=3` of line 61. -/
def defaultRetries : Nat := 3

/-- Default `delay=5` of line 61. -/
def defaultDelay : Nat := 5

/-- A Python exception aborting `download_firmwares`. `typeError` stands
for the `TypeError`/`KeyError` of subscripting a missing element or
attribute, `nameError` for reading `percent` (line 143) before the chunk
loop ever assigned it. -/
inductive PyErr where
  | attributeError
  | indexError
  | typeError
  | nameError
  | zeroDivision
  | streamError (msg : String)
deriving Repr, DecidableEq

/-- `cols[i]`: raises `IndexError` when the row is too short. -/
def getCol (row : Row) (i : Nat) : Except PyErr Cell :=
  match row[i]? with
  | some c => .ok c
  | none => .error .indexError

/-- Reading an attribute of a found sub-element: raises when the element or
the attribute is missing. -/
def getAttr (o : Option String) : Except PyErr String :=
  match o with
  | some s => .ok s
  | none => .error .typeError

/-- Python's `str.strip()`: remove leading and trailing whitespace. -/
def stripStr (s : String) : String :=
  ⟨((s.data.dropWhile Char.isWhitespace).reverse.dropWhile Char.isWhitespace).reverse⟩

/-- Field extraction from one data row, lines 103-107, in evaluation order:
`version = cols[1].text.strip()`, `size = cols[2].text.strip()`,
`url = cols[3].find(button)[data-url]`, `md5 = cols[4].find(a)[data-copy]`. -/
def extractRow (row : Row) : Except PyErr (String × String × String × String) := do
  let c1 ← getCol row 1
  let c2 ← getCol row 2
  let c3 ← getCol row 3
  let url ← getAttr c3.buttonDataUrl
  let c4 ← getCol row 4
  let md5 ← getAttr c4.anchorDataCopy
  return (stripStr c1.text, stripStr c2.text, url, md5)

/-- Whether a computation succeeded. -/
def isOkE {α : Type} : Except PyErr α → Bool
  | .ok _ => true
  | .error _ => false

/-- The fixed section list of line 85, in declared order. -/
def sections : List String :=
  ["Retail Firmwares", "Testkit Firmwares", "PS3 GEX FW", "DECR Firmware"]

/-- One typed catalog entry, as extracted from a data row of a section. -/
structure FirmwareEntry where
  sectionName : String
  version : String
  size : String
  url : String
  md5 : String
deriving Repr, DecidableEq

/-- The entry a data row yields, when its extraction succeeds. -/
def entryOfRow (sec : String) (row : Row) : Option FirmwareEntry :=
  match extractRow row with
  | .ok (v, sz, u, m) => some ⟨sec, v, sz, u, m⟩
  | .error _ => none

/-- Parsing all data rows of one section, in document order. -/
def parseRows (sec : String) : List Row → Except PyErr (List FirmwareEntry)
  | [] => .ok []
  | r :: rs => do
    let (v, sz, u, m) ← extractRow r
    let rest ← parseRows sec rs
    return ⟨sec, v, sz, u, m⟩ :: rest

/-- Parsing one section: locate its table (line 96), drop the header row
(line 97), extract every remaining row (lines 102-107). -/
def parseSection (soup : Soup) (sec : String) : Except PyErr (List FirmwareEntry) :=
  match soup sec with
  | none => .error .attributeError
  | some tbl => parseRows sec (tbl.drop 1)

/-- Parsing a list of sections in order, concatenating their entries. -/
def parseSections (soup : Soup) : List String → Except PyErr (List FirmwareEntry)
  | [] => .ok []
  | s :: rest => do
    let es ← parseSection soup s
    let tail ← parseSections soup rest
    return es ++ tail

/-- The catalog-parsing aspect of `download_firmwares` (lines 85-107),
isolated from the network and filesystem effects it is interleaved with:
sections in the fixed declared order, rows of each table in document order
with the header row skipped, fields extracted per row. -/
def parseCatalog (soup : Soup) : Except PyErr (List FirmwareEntry) :=
  parseSections soup sections

/-- Decision procedure for the four-section schema: every required section
has a table, and every data row of it carries all required fields. -/
def wellFormedB (soup : Soup) : Bool :=
  sections.all fun s =>
    (soup s).isSome &&
      (((soup s).getD []).drop 1).all fun r => isOkE (extractRow r)

/-- The document matches the four-section schema. -/
abbrev wellFormed (soup : Soup) : Prop :=
  wellFormedB soup = true

/-- Number of data rows (header excluded) of one section's table. -/
def rowsLen (soup : Soup) (s : String) : Nat :=
  (((soup s).getD []).drop 1).length

/-- Number of data rows across the four section tables. -/
def totalRows (soup : Soup) : Nat :=
  (sections.map (rowsLen soup)).sum

/-- A value of a log-entry field: Python puts both numbers and strings in
the per-entry dict. -/
inductive Val where
  | num (q : ℚ)
  | str (s : String)
deriving Repr, DecidableEq

/-- One per-entry record of `log_entries`: the dict of lines 133-142 or
147-156, as an ordered key-value list. -/
abbrev LogEntry := List (String × Val)

/-- Dictionary lookup on a log entry. -/
def lookupVal : LogEntry → String → Option Val
  | [], _ => none
  | (k, v) :: rest, key => if k = key then some v else lookupVal rest key

/-- The success record appended at lines 133-142. -/
def mkSuccessEntry (version sec url size md5 : String) (time_taken average_speed : ℚ) :
    LogEntry :=
  [("version", .str version), ("section", .str sec), ("status", .str "success"),
   ("url", .str url), ("size", .str size), ("md5", .str md5),
   ("time_taken", .num time_taken), ("average_speed", .num average_speed)]

/-- The failure record appended at lines 147-156: timing metrics are the
string sentinel `N/A`. -/
def mkFailedEntry (version sec url size md5 : String) : LogEntry :=
  [("version", .str version), ("section", .str sec), ("status", .str "failed"),
   ("url", .str url), ("size", .str size), ("md5", .str md5),
   ("time_taken", .str "N/A"), ("average_speed", .str "N/A")]

/-- Every recorded entry is an instance of one of the two literal shapes. -/
def entryShape (e : LogEntry) : Prop :=
  (∃ v s u z m t a, e = mkSuccessEntry v s u z m t a) ∨
  (∃ v s u z m, e = mkFailedEntry v s u z m)

/-- A recorded filesystem effect, with paths as component lists relative to
the base directory. -/
inductive FsWrite where
  | mkdir (path : List String)
  | writeFile (path : List String) (bytes : Nat)
deriving Repr, DecidableEq

/-- The mutable state of one `download_firmwares` run: the counters of
lines 88-90, the `log_entries` list, plus the recorded effect traces (file
writes, urls a download was attempted against) and the function-scoped
`percent` variable last assigned by a chunk loop. -/
structure RunState where
  total_files : Nat
  success_count : Nat
  failure_count : Nat
  log_entries : List LogEntry
  fsWrites : List FsWrite
  fetchedUrls : List String
  lastPercent : Option ℚ
deriving Repr, DecidableEq

/-- State at line 91: counters zero, nothing recorded. -/
def initState : RunState := ⟨0, 0, 0, [], [], [], none⟩

/-- Record one filesystem effect. -/
def addFs (st : RunState) (w : FsWrite) : RunState :=
  { st with fsWrites := st.fsWrites ++ [w] }

/-- Name of the fixed payload file, line 115. -/
def payloadName : String := "PS3UPDAT.PUP"

/-- The chunk loop of lines 120-125 over the sizes yielded by
`iter_content`. For each chunk the code first adds its length to `wrote`
and writes it to the payload file (lines 121-122), then computes the
progress bar: `done = int(50 * wrote / total_size)` (line 123) raises
`ZeroDivisionError` when `total_size` is `0` (a missing or zero
`content-length` header, line 116), else `percent = wrote / total_size * 100`
is assigned (line 124). Returns the bytes written so far, the last value
assigned to `percent` by this loop, and the error that aborted it, if any. -/
def iterChunks (total_size : Nat) : Nat → Option ℚ → List Nat →
    Nat × Option ℚ × Option PyErr
  | wrote, pct, [] => (wrote, pct, none)
  | wrote, pct, c :: rest =>
    let wrote1 := wrote + c
    if total_size = 0 then (wrote1, pct, some .zeroDivision)
    else iterChunks total_size wrote1
      (some ((wrote1 : ℚ) / (total_size : ℚ) * 100)) rest

/-- Line 131: `wrote / time_taken / 1024 / 1024 if time_taken > 0 else 0`. -/
def average_speed_calc (wrote time_taken : ℚ) : ℚ :=
  if 0 < time_taken then wrote / time_taken / 1024 / 1024 else 0

/-- Lines 115-144, handling a non-`None` response: stream the body into the
payload file, then also check the stream's end; on a clean stream append
the success record (lines 133-142), evaluate the completion log line that
reads `percent` (line 143, `NameError` when no chunk loop of this run ever
assigned it) and bump `success_count` (line 144). Errors abort the whole
`download_firmwares` call, the code catching nothing here. -/
def handleResponse (firmwareDir : List String)
    (secLabel version size url md5 : String) (resp : Response)
    (st : RunState) : RunState × Option PyErr :=
  match iterChunks (resp.contentLength.getD 0) 0 none resp.chunks with
  | (wrote, _, some e) =>
    (addFs st (.writeFile (firmwareDir ++ [payloadName]) wrote), some e)
  | (wrote, pct, none) =>
    let st1 := addFs st (.writeFile (firmwareDir ++ [payloadName]) wrote)
    if resp.streamOk then
      let st2 := { st1 with log_entries := st1.log_entries ++
        [mkSuccessEntry version secLabel url size md5 resp.elapsed
          (average_speed_calc (wrote : ℚ) resp.elapsed)] }
      match pct, st2.lastPercent with
      | some q, _ =>
        ({ st2 with
            lastPercent := some q,
            success_count := st2.success_count + 1 }, none)
      | none, some q =>
        ({ st2 with
            lastPercent := some q,
            success_count := st2.success_count + 1 }, none)
      | none, none => (st2, some .nameError)
    else
      (st1, some (.streamError "connection broken while reading body"))

/-- Lines 109-158 for one extracted row: create the per-version directory
(lines 109-110), fetch with retries (line 113), then either stream and
record a success, or append the failure record and bump `failure_count`
(lines 145-158). -/
def processEntry (net : Net) (sectionDir : List String)
    (secLabel version size url md5 : String) (st : RunState) :
    RunState × Option PyErr :=
  let firmwareDir := sectionDir ++ [version]
  let st1 := addFs st (.mkdir firmwareDir)
  let st2 := { st1 with fetchedUrls := st1.fetchedUrls ++ [url] }
  match (download_with_retries net url defaultRetries defaultDelay).result with
  | some resp => handleResponse firmwareDir secLabel version size url md5 resp st2
  | none =>
    ({ st2 with
        log_entries := st2.log_entries ++ [mkFailedEntry version secLabel url size md5],
        failure_count := st2.failure_count + 1 }, none)

/-- One iteration of the row loop (lines 102-158): extract the fields, then
process the entry. An extraction error propagates out of the function. -/
def processRow (net : Net) (sectionDir : List String) (secLabel : String)
    (row : Row) (st : RunState) : RunState × Option PyErr :=
  match extractRow row with
  | .error e => (st, some e)
  | .ok (version, size, url, md5) =>
    processEntry net sectionDir secLabel version size url md5 st

/-- The row loop over the data rows of one section, stopping at the first
uncaught error. -/
def processRows (net : Net) (sectionDir : List String) (secLabel : String) :
    List Row → RunState → RunState × Option PyErr
  | [], st => (st, none)
  | r :: rs, st =>
    match processRow net sectionDir secLabel r st with
    | (st1, some e) => (st1, some e)
    | (st1, none) => processRows net sectionDir secLabel rs st1

/-- The directory name `section.replace(" ", "_")` of line 93. The pattern
being the single character `" "`, Python's `str.replace` is exactly the
character-wise substitution of spaces by underscores. -/
def sectionDirName (s : String) : String :=
  ⟨s.data.map fun c => if c = ' ' then '_' else c⟩

/-- One iteration of the section loop (lines 92-100): create the section
directory (lines 93-94, before the document is consulted), locate the
section table (line 96, `AttributeError` when the span is missing), add the
data-row count to `total_files` (line 100), then run the row loop. -/
def processSection (net : Net) (soup : Soup) (secLabel : String)
    (st : RunState) : RunState × Option PyErr :=
  let sectionDir := [sectionDirName secLabel]
  let st1 := addFs st (.mkdir sectionDir)
  match soup secLabel with
  | none => (st1, some .attributeError)
  | some tbl =>
    let rows := tbl.drop 1
    processRows net sectionDir secLabel rows
      { st1 with total_files := st1.total_files + rows.length }

/-- The section loop over a list of section labels. -/
def processSections (net : Net) (soup : Soup) :
    List String → RunState → RunState × Option PyErr
  | [], st => (st, none)
  | s :: rest, st =>
    match processSection net soup s st with
    | (st1, some e) => (st1, some e)
    | (st1, none) => processSections net soup rest st1

/-- `download_firmwares` (lines 77-182): the full run over the four fixed
sections. Returns the final state together with the Python exception that
aborted the run, when one did (`none` = the run reached the report-writing
code at line 166). The inter-entry `time.sleep(10)` of line 161 and the
wall-clock timestamps, which have no effect on any recorded data, are
elided. -/
def download_firmwares (soup : Soup) (net : Net) : RunState × Option PyErr :=
  processSections net soup sections initState

/-- The aggregate figures and the table rendered into the report file by
lines 166-180: `Total Files Parsed`, `Successful Downloads`,
`Failed Downloads`, and one table row per log entry. -/
structure RunReport where
  totalFiles : Nat
  successCount : Nat
  failureCount : Nat
  rows : List LogEntry
deriving Repr, DecidableEq

/-- The pure projection of the final state that lines 166-180 render. -/
def renderReport (st : RunState) : RunReport :=
  ⟨st.total_files, st.success_count, st.failure_count, st.log_entries⟩

/-- A network under which every streamed response is unproblematic for the
progress-bar and stream-handling code: a declared nonzero content length,
at least one chunk, and a cleanly ending stream. Request-level failures
(`AttemptResult.fail`) remain unrestricted. -/
def benignNet (net : Net) : Prop :=
  ∀ u n r, net u n = .ok r →
    r.streamOk = true ∧ r.contentLength.getD 0 ≠ 0 ∧ r.chunks ≠ []

/-! ## Concrete documents and network behaviours used as test vectors -/

/-- A cell holding only text. -/
def textCell (t : String) : Cell := ⟨t, none, none⟩

/-- A header row; its cells are never inspected, the row is dropped. -/
def headerRow : Row := []

/-- The data row of the end-to-end scenario of the specification: version
`4.91`, url `http://x/fw.pup`, checksum `abc123` (cell 0 is the unused
first column). -/
def rowA : Row :=
  [textCell "", textCell "4.91", textCell "200 MB",
   ⟨"", some "http://x/fw.pup", none⟩, ⟨"", none, some "abc123"⟩]

/-- A second data row: version `4.90`, url `http://x/fw2.pup`. -/
def rowB : Row :=
  [textCell "", textCell "4.90", textCell "199 MB",
   ⟨"", some "http://x/fw2.pup", none⟩, ⟨"", none, some "def456"⟩]

/-- A schema-conforming document: one data row in the retail section, the
three other sections present with only their header row. -/
def soupOk : Soup := fun s =>
  if s = "Retail Firmwares" then some [headerRow, rowA]
  else if s ∈ sections then some [headerRow] else none

/-- A document whose first section is present with one data row but whose
remaining sections are missing. -/
def soupMissing : Soup := fun s =>
  if s = "Retail Firmwares" then some [headerRow, rowA] else none

/-- A schema-conforming document with two data rows in the retail section. -/
def soupTwo : Soup := fun s =>
  if s = "Retail Firmwares" then some [headerRow, rowA, rowB]
  else if s ∈ sections then some [headerRow] else none

/-- A document with no sections at all. -/
def soupNone : Soup := fun _ => none

/-- A network where every GET succeeds at once with a 1000-byte body in one
chunk, a matching content-length, and a 2-second transfer. -/
def netOk : Net := fun _ _ => .ok ⟨some 1000, [1000], true, 2⟩

/-- A network whose responses carry no content-length header but a 10-byte
body. -/
def netNoLen : Net := fun _ _ => .ok ⟨none, [10], true, 1⟩

/-- A network whose responses break mid-stream after yielding 1000 bytes. -/
def netMid : Net := fun _ _ => .ok ⟨some 1000, [1000], false, 1⟩

/-- A network where every attempt fails at the request level. -/
def netFail : Net := fun _ _ => .fail "boom"

/-! ## The retry loop -/

/-- A failing attempt is a `fail` with some reason. -/
theorem isFail_exists (x : AttemptResult) (h : isFailA x = true) :
    ∃ e, x = .fail e := by
  cases x with
  | ok r => simp [isFailA] at h
  | fail e => exact ⟨e, rfl⟩

/-- Unfolding: a successful attempt returns at once. -/
theorem fetchAttempts_ok (net : Net) (url : String)
    (retries delay a fuel : Nat) (r : Response) (he : net url a = .ok r) :
    fetchAttempts net url retries delay a (fuel + 1) = ⟨some r, 1, [], []⟩ := by
  simp [fetchAttempts, he]

/-- Unfolding: a failed attempt with retries left sleeps and recurses. -/
theorem fetchAttempts_fail_retry (net : Net) (url : String)
    (retries delay a fuel : Nat) (e : String) (he : net url a = .fail e)
    (hcond : a < retries - 1) :
    fetchAttempts net url retries delay a (fuel + 1) =
      ⟨(fetchAttempts net url retries delay (a + 1) fuel).result,
       (fetchAttempts net url retries delay (a + 1) fuel).attempts + 1,
       delay :: (fetchAttempts net url retries delay (a + 1) fuel).sleeps,
       LogEvent.error ("Attempt " ++ toString (a + 1) ++ " failed: " ++ e) ::
         LogEvent.info ("Retrying in " ++ toString delay ++ " seconds...") ::
         (fetchAttempts net url retries delay (a + 1) fuel).logs⟩ := by
  simp [fetchAttempts, he, hcond]

/-- Unfolding: the last failed attempt gives up. -/
theorem fetchAttempts_fail_last (net : Net) (url : String)
    (retries delay a fuel : Nat) (e : String) (he : net url a = .fail e)
    (hcond : ¬ a < retries - 1) :
    fetchAttempts net url retries delay a (fuel + 1) =
      ⟨none, 1, [],
       [LogEvent.error ("Attempt " ++ toString (a + 1) ++ " failed: " ++ e),
        LogEvent.error "Max retries reached. Skipping this file."]⟩ := by
  simp [fetchAttempts, he, hcond]

/-- Against attempts that all fail, the loop makes every remaining attempt,
sleeps between consecutive attempts only, returns `none` and logs the
exhaustion message. -/
theorem fetchAttempts_allFail (net : Net) (url : String) (retries delay : Nat)
    (hfail : ∀ n, n < retries → isFailA (net url n) = true) :
    ∀ fuel a, a + fuel = retries → 1 ≤ fuel →
      (fetchAttempts net url retries delay a fuel).result = none ∧
      (fetchAttempts net url retries delay a fuel).attempts = fuel ∧
      (fetchAttempts net url retries delay a fuel).sleeps =
        List.replicate (fuel - 1) delay ∧
      LogEvent.error "Max retries reached. Skipping this file." ∈
        (fetchAttempts net url retries delay a fuel).logs := by
  intro fuel
  induction fuel with
  | zero => intro a _ h1; omega
  | succ k ih =>
    intro a ha _
    obtain ⟨e, he⟩ := isFail_exists _ (hfail a (by omega))
    cases k with
    | zero =>
      have hcond : ¬ a < retries - 1 := by omega
      rw [fetchAttempts_fail_last net url retries delay a 0 e he hcond]
      simp
    | succ m =>
      have hcond : a < retries - 1 := by omega
      obtain ⟨ih1, ih2, ih3, ih4⟩ := ih (a + 1) (by omega) (by omega)
      rw [fetchAttempts_fail_retry net url retries delay a (m + 1) e he hcond]
      refine ⟨ih1, ?_, ?_, ?_⟩
      · simpa using ih2
      · simp [ih3, List.replicate_succ]
      · simp [ih4]

/-- When the attempts before index `N` fail and attempt `N` succeeds, the
loop returns that response after `N + 1 - a` attempts with `N - a` sleeps. -/
theorem fetchAttempts_succeedAt (net : Net) (url : String)
    (retries delay N : Nat) (r : Response)
    (hfail : ∀ n, n < N → isFailA (net url n) = true)
    (hok : net url N = .ok r) (hN : N < retries) :
    ∀ fuel a, a + fuel = retries → a ≤ N →
      (fetchAttempts net url retries delay a fuel).result = some r ∧
      (fetchAttempts net url retries delay a fuel).attempts = N + 1 - a ∧
      (fetchAttempts net url retries delay a fuel).sleeps =
        List.replicate (N - a) delay := by
  intro fuel
  induction fuel with
  | zero => intro a h1 h2; omega
  | succ k ih =>
    intro a ha haN
    by_cases hEq : a = N
    · subst hEq
      rw [fetchAttempts_ok net url retries delay a k r hok]
      refine ⟨rfl, show 1 = a + 1 - a by omega, by simp⟩
    · obtain ⟨e, he⟩ := isFail_exists _ (hfail a (by omega))
      have hcond : a < retries - 1 := by omega
      obtain ⟨ih1, ih2, ih3⟩ := ih (a + 1) (by omega) (by omega)
      have hNa : N - a = (N - (a + 1)) + 1 := by omega
      rw [fetchAttempts_fail_retry net url retries delay a k e he hcond]
      refine ⟨ih1, ?_, ?_⟩
      · simp [ih2]; omega
      · simp [ih3, hNa, List.replicate_succ]

/-- With a nonzero declared length the chunk loop never raises. -/
theorem iterChunks_no_err (total : Nat) (h : total ≠ 0) :
    ∀ chunks wrote pct0, (iterChunks total wrote pct0 chunks).2.2 = none := by
  intro chunks
  induction chunks with
  | nil => intro wrote pct0; rfl
  | cons c rest ih =>
    intro wrote pct0
    simp [iterChunks, h]
    exact ih _ _

/-- With a nonzero declared length, a nonempty body (or an already assigned
percentage) leaves the percentage assigned. -/
theorem iterChunks_pct_some (total : Nat) (h : total ≠ 0) :
    ∀ chunks wrote pct0, (pct0.isSome = true ∨ chunks ≠ []) →
      ((iterChunks total wrote pct0 chunks).2.1).isSome = true := by
  intro chunks
  induction chunks with
  | nil =>
    intro wrote pct0 hp
    rcases hp with hp | hp
    · exact hp
    · exact absurd rfl hp
  | cons c rest ih =>
    intro wrote pct0 _
    simp [iterChunks, h]
    exact ih _ _ (Or.inl rfl)

/-- Any response the retry loop returns came from one of the attempts. -/
theorem fetchAttempts_result_some (net : Net) (url : String)
    (retries delay : Nat) :
    ∀ fuel a r, (fetchAttempts net url retries delay a fuel).result = some r →
      ∃ n, net url n = .ok r := by
  intro fuel
  induction fuel with
  | zero => intro a r h; simp [fetchAttempts] at h
  | succ k ih =>
    intro a r h
    cases hx : net url a with
    | ok r0 =>
      refine ⟨a, ?_⟩
      simp [fetchAttempts, hx] at h
      rw [hx, h]
    | fail e =>
      by_cases hcond : a < retries - 1
      · simp [fetchAttempts, hx, hcond] at h
        exact ih (a + 1) r h
      · simp [fetchAttempts, hx, hcond] at h


/-! ## Per-entry and per-section invariants -/

/-- A completed success path: counters and the appended record. -/
theorem handleResponse_ok (d : List String) (sl v sz u m : String)
    (resp : Response) (st st' : RunState)
    (h : handleResponse d sl v sz u m resp st = (st', none)) :
    st'.total_files = st.total_files ∧
    st'.success_count = st.success_count + 1 ∧
    st'.failure_count = st.failure_count ∧
    ∃ t a, st'.log_entries = st.log_entries ++ [mkSuccessEntry v sl u sz m t a] := by
  rcases hres : iterChunks (resp.contentLength.getD 0) 0 none resp.chunks
    with ⟨wrote, pct, errO⟩
  cases errO with
  | some e =>
    simp [handleResponse, hres] at h
  | none =>
    by_cases hs : resp.streamOk = true
    · cases pct with
      | some q =>
        simp [handleResponse, hres, hs, addFs, Prod.mk.injEq] at h
        subst h
        refine ⟨by simp, by simp, by simp, resp.elapsed,
          average_speed_calc (wrote : ℚ) resp.elapsed, by simp⟩
      | none =>
        cases hl : st.lastPercent with
        | some q =>
          simp [handleResponse, hres, hs, addFs, hl, Prod.mk.injEq] at h
          subst h
          refine ⟨by simp, by simp, by simp, resp.elapsed,
            average_speed_calc (wrote : ℚ) resp.elapsed, by simp⟩
        | none =>
          simp [handleResponse, hres, hs, addFs, hl] at h
    · simp [handleResponse, hres, hs] at h



/-- Entries appended by the response handler are of a recorded shape. -/
theorem handleResponse_entries (d : List String) (sl v sz u m : String)
    (resp : Response) (st st' : RunState) (r : Option PyErr)
    (h : handleResponse d sl v sz u m resp st = (st', r)) :
    ∀ e ∈ st'.log_entries, e ∈ st.log_entries ∨ entryShape e := by
  rcases hres : iterChunks (resp.contentLength.getD 0) 0 none resp.chunks
    with ⟨wrote, pct, errO⟩
  cases errO with
  | some e =>
    simp [handleResponse, hres, addFs, Prod.mk.injEq] at h
    obtain ⟨h1, -⟩ := h
    subst h1
    intro e he
    simp at he
    exact Or.inl he
  | none =>
    by_cases hs : resp.streamOk = true
    · cases pct with
      | some q =>
        simp [handleResponse, hres, hs, addFs, Prod.mk.injEq] at h
        obtain ⟨h1, -⟩ := h
        subst h1
        intro e he
        simp at he
        rcases he with he | he
        · exact Or.inl he
        · exact Or.inr (Or.inl ⟨v, sl, u, sz, m, _, _, he⟩)
      | none =>
        cases hl : st.lastPercent with
        | some q =>
          simp [handleResponse, hres, hs, addFs, hl, Prod.mk.injEq] at h
          obtain ⟨h1, -⟩ := h
          subst h1
          intro e he
          simp at he
          rcases he with he | he
          · exact Or.inl he
          · exact Or.inr (Or.inl ⟨v, sl, u, sz, m, _, _, he⟩)
        | none =>
          simp [handleResponse, hres, hs, addFs, hl, Prod.mk.injEq] at h
          obtain ⟨h1, -⟩ := h
          subst h1
          intro e he
          simp at he
          rcases he with he | he
          · exact Or.inl he
          · exact Or.inr (Or.inl ⟨v, sl, u, sz, m, _, _, he⟩)
    · simp [handleResponse, hres, hs, addFs, Prod.mk.injEq] at h
      obtain ⟨h1, -⟩ := h
      subst h1
      intro e he
      simp at he
      exact Or.inl he

/-- A returned response stems from some attempt of the network. -/
theorem download_with_retries_result_some (net : Net) (url : String)
    (retries delay : Nat) (r : Response)
    (h : (download_with_retries net url retries delay).result = some r) :
    ∃ n, net url n = .ok r :=
  fetchAttempts_result_some net url retries delay retries 0 r h

/-- A benign response is handled without raising. -/
theorem handleResponse_benign (d : List String) (sl v sz u m : String)
    (resp : Response) (st : RunState)
    (h1 : resp.streamOk = true) (h2 : resp.contentLength.getD 0 ≠ 0)
    (h3 : resp.chunks ≠ []) :
    (handleResponse d sl v sz u m resp st).2 = none := by
  rcases hres : iterChunks (resp.contentLength.getD 0) 0 none resp.chunks
    with ⟨wrote, pct, errO⟩
  have herr := iterChunks_no_err _ h2 resp.chunks 0 none
  rw [hres] at herr
  simp at herr
  subst herr
  have hpct := iterChunks_pct_some _ h2 resp.chunks 0 none (Or.inr h3)
  rw [hres] at hpct
  simp at hpct
  obtain ⟨q, hq⟩ := Option.isSome_iff_exists.mp hpct
  subst hq
  simp [handleResponse, hres, h1]

/-- A completed entry adds exactly one shaped record and one counted outcome. -/
theorem processEntry_ok (net : Net) (d : List String) (sl v sz u m : String)
    (st st' : RunState)
    (h : processEntry net d sl v sz u m st = (st', none)) :
    st'.total_files = st.total_files ∧
    st'.success_count + st'.failure_count =
      st.success_count + st.failure_count + 1 ∧
    ∃ e, entryShape e ∧ st'.log_entries = st.log_entries ++ [e] := by
  cases hres : (download_with_retries net u defaultRetries defaultDelay).result with
  | none =>
    simp [processEntry, hres, addFs, Prod.mk.injEq] at h
    subst h
    refine ⟨by simp, by simp_arith, mkFailedEntry v sl u sz m,
      Or.inr ⟨v, sl, u, sz, m, rfl⟩, by simp⟩
  | some resp =>
    simp [processEntry, hres, addFs] at h
    obtain ⟨ht, hs, hf, t, a, hl⟩ := handleResponse_ok _ _ _ _ _ _ _ _ _ h
    refine ⟨by simpa using ht, by simp at hs hf; omega, mkSuccessEntry v sl u sz m t a,
      Or.inl ⟨v, sl, u, sz, m, t, a, rfl⟩, by simpa using hl⟩

/-- All records after one entry are old records or shaped new ones. -/
theorem processEntry_entries (net : Net) (d : List String) (sl v sz u m : String)
    (st st' : RunState) (r : Option PyErr)
    (h : processEntry net d sl v sz u m st = (st', r)) :
    ∀ e ∈ st'.log_entries, e ∈ st.log_entries ∨ entryShape e := by
  cases hres : (download_with_retries net u defaultRetries defaultDelay).result with
  | none =>
    simp [processEntry, hres, addFs, Prod.mk.injEq] at h
    obtain ⟨h1, -⟩ := h
    subst h1
    intro e he
    simp at he
    rcases he with he | he
    · exact Or.inl he
    · exact Or.inr (Or.inr ⟨v, sl, u, sz, m, he⟩)
  | some resp =>
    simp [processEntry, hres, addFs] at h
    intro e he
    rcases handleResponse_entries _ _ _ _ _ _ _ _ _ _ h e he with he2 | he2
    · simp at he2
      exact Or.inl he2
    · exact Or.inr he2

/-- Under a benign network an entry never aborts the run. -/
theorem processEntry_benign (net : Net) (d : List String) (sl v sz u m : String)
    (st : RunState) (hb : benignNet net) :
    (processEntry net d sl v sz u m st).2 = none := by
  cases hres : (download_with_retries net u defaultRetries defaultDelay).result with
  | none => simp [processEntry, hres]
  | some resp =>
    obtain ⟨n, hn⟩ := download_with_retries_result_some net u defaultRetries defaultDelay resp hres
    obtain ⟨h1, h2, h3⟩ := hb u n resp hn
    simp [processEntry, hres]
    exact handleResponse_benign _ _ _ _ _ _ resp _ h1 h2 h3

/-- A completed row adds one outcome to the counters and the record list. -/
theorem processRow_ok (net : Net) (d : List String) (sl : String) (row : Row)
    (st st' : RunState) (h : processRow net d sl row st = (st', none)) :
    st'.total_files = st.total_files ∧
    st'.success_count + st'.failure_count =
      st.success_count + st.failure_count + 1 ∧
    st'.log_entries.length = st.log_entries.length + 1 := by
  cases hext : extractRow row with
  | error e => simp [processRow, hext] at h
  | ok q =>
    obtain ⟨v, sz, u, m⟩ := q
    rw [processRow, hext] at h
    obtain ⟨h1, h2, e, -, h3⟩ := processEntry_ok _ _ _ _ _ _ _ _ _ h
    exact ⟨h1, h2, by simp [h3]⟩

/-- All records after one row are old records or shaped new ones. -/
theorem processRow_entries (net : Net) (d : List String) (sl : String) (row : Row)
    (st st' : RunState) (r : Option PyErr)
    (h : processRow net d sl row st = (st', r)) :
    ∀ e ∈ st'.log_entries, e ∈ st.log_entries ∨ entryShape e := by
  cases hext : extractRow row with
  | error e =>
    rw [processRow, hext] at h
    simp at h
    obtain ⟨h1, -⟩ := h
    subst h1
    intro e he
    exact Or.inl he
  | ok q =>
    obtain ⟨v, sz, u, m⟩ := q
    rw [processRow, hext] at h
    exact processEntry_entries _ _ _ _ _ _ _ _ _ _ h

/-- A well-formed row under a benign network never aborts the run. -/
theorem processRow_benign (net : Net) (d : List String) (sl : String) (row : Row)
    (st : RunState) (hok : isOkE (extractRow row) = true) (hb : benignNet net) :
    (processRow net d sl row st).2 = none := by
  cases hext : extractRow row with
  | error e => rw [hext] at hok; simp [isOkE] at hok
  | ok q =>
    obtain ⟨v, sz, u, m⟩ := q
    rw [processRow, hext]
    exact processEntry_benign _ _ _ _ _ _ _ _ hb

/-- A completed row loop adds one outcome per data row. -/
theorem processRows_ok (net : Net) (d : List String) (sl : String) :
    ∀ (rows : List Row) (st st' : RunState),
      processRows net d sl rows st = (st', none) →
      st'.total_files = st.total_files ∧
      st'.success_count + st'.failure_count =
        st.success_count + st.failure_count + rows.length ∧
      st'.log_entries.length = st.log_entries.length + rows.length := by
  intro rows
  induction rows with
  | nil =>
    intro st st' h
    rw [processRows] at h
    simp at h
    subst h
    simp
  | cons r rs ih =>
    intro st st' h
    rw [processRows] at h
    rcases hpr : processRow net d sl r st with ⟨st1, r1⟩
    rw [hpr] at h
    cases r1 with
    | some e => simp at h
    | none =>
      simp at h
      obtain ⟨g1, g2, g3⟩ := processRow_ok _ _ _ _ _ _ hpr
      obtain ⟨k1, k2, k3⟩ := ih st1 st' h
      refine ⟨by omega, by simp; omega, by simp; omega⟩

/-- The row loop only appends shaped records. -/
theorem processRows_entries (net : Net) (d : List String) (sl : String) :
    ∀ (rows : List Row) (st st' : RunState) (r : Option PyErr),
      processRows net d sl rows st = (st', r) →
      ∀ e ∈ st'.log_entries, e ∈ st.log_entries ∨ entryShape e := by
  intro rows
  induction rows with
  | nil =>
    intro st st' r h
    rw [processRows] at h
    simp at h
    obtain ⟨h1, -⟩ := h
    subst h1
    intro e he
    exact Or.inl he
  | cons rw0 rs ih =>
    intro st st' r h
    rw [processRows] at h
    rcases hpr : processRow net d sl rw0 st with ⟨st1, r1⟩
    rw [hpr] at h
    cases r1 with
    | some e =>
      simp at h
      obtain ⟨h1, -⟩ := h
      subst h1
      exact processRow_entries _ _ _ _ _ _ _ hpr
    | none =>
      simp at h
      intro e he
      rcases ih st1 st' r h e he with h2 | h2
      · exact processRow_entries _ _ _ _ _ _ _ hpr e h2
      · exact Or.inr h2

/-- A well-formed row list under a benign network completes. -/
theorem processRows_benign (net : Net) (d : List String) (sl : String)
    (hb : benignNet net) :
    ∀ (rows : List Row) (st : RunState),
      (∀ r ∈ rows, isOkE (extractRow r) = true) →
      (processRows net d sl rows st).2 = none := by
  intro rows
  induction rows with
  | nil => intro st _; rw [processRows]
  | cons r rs ih =>
    intro st hok
    rw [processRows]
    rcases hpr : processRow net d sl r st with ⟨st1, r1⟩
    have : r1 = none := by
      have h2 := processRow_benign net d sl r st (hok r (by simp)) hb
      rw [hpr] at h2
      exact h2
    subst this
    exact ih st1 (fun r2 hr2 => hok r2 (by simp [hr2]))

/-- A completed section adds its data-row count to all three tallies. -/
theorem processSection_ok (net : Net) (soup : Soup) (s : String)
    (st st' : RunState) (h : processSection net soup s st = (st', none)) :
    (soup s).isSome = true ∧
    st'.total_files = st.total_files + rowsLen soup s ∧
    st'.success_count + st'.failure_count =
      st.success_count + st.failure_count + rowsLen soup s ∧
    st'.log_entries.length = st.log_entries.length + rowsLen soup s := by
  cases hsp : soup s with
  | none => simp [processSection, hsp] at h
  | some tbl =>
    rw [processSection, hsp] at h
    simp only [addFs] at h
    obtain ⟨k1, k2, k3⟩ := processRows_ok _ _ _ _ _ _ h
    refine ⟨rfl, ?_, ?_, ?_⟩ <;>
      simp [rowsLen, hsp] at k1 k2 k3 ⊢ <;> omega

/-- The section loop body only appends shaped records. -/
theorem processSection_entries (net : Net) (soup : Soup) (s : String)
    (st st' : RunState) (r : Option PyErr)
    (h : processSection net soup s st = (st', r)) :
    ∀ e ∈ st'.log_entries, e ∈ st.log_entries ∨ entryShape e := by
  cases hsp : soup s with
  | none =>
    rw [processSection, hsp] at h
    simp [addFs] at h
    obtain ⟨h1, -⟩ := h
    subst h1
    intro e he
    simp at he
    exact Or.inl he
  | some tbl =>
    rw [processSection, hsp] at h
    intro e he
    rcases processRows_entries _ _ _ _ _ _ _ h e he with h2 | h2
    · simp [addFs] at h2
      exact Or.inl h2
    · exact Or.inr h2

/-- A present, well-formed section under a benign network completes. -/
theorem processSection_benign (net : Net) (soup : Soup) (s : String)
    (st : RunState) (hb : benignNet net) (hsp : (soup s).isSome = true)
    (hrows : ∀ r ∈ ((soup s).getD []).drop 1, isOkE (extractRow r) = true) :
    (processSection net soup s st).2 = none := by
  cases hs2 : soup s with
  | none => rw [hs2] at hsp; simp at hsp
  | some tbl =>
    rw [processSection, hs2]
    apply processRows_benign _ _ _ hb
    intro r hr
    apply hrows
    rw [hs2]
    simpa using hr

/-- A completed run over a section list adds one outcome per data row. -/
theorem processSections_ok (net : Net) (soup : Soup) :
    ∀ (l : List String) (st st' : RunState),
      processSections net soup l st = (st', none) →
      st'.total_files = st.total_files + (l.map (rowsLen soup)).sum ∧
      st'.success_count + st'.failure_count =
        st.success_count + st.failure_count + (l.map (rowsLen soup)).sum ∧
      st'.log_entries.length = st.log_entries.length + (l.map (rowsLen soup)).sum := by
  intro l
  induction l with
  | nil =>
    intro st st' h
    rw [processSections] at h
    simp at h
    subst h
    simp
  | cons s rest ih =>
    intro st st' h
    rw [processSections] at h
    rcases hps : processSection net soup s st with ⟨st1, r1⟩
    rw [hps] at h
    cases r1 with
    | some e => simp at h
    | none =>
      simp at h
      obtain ⟨-, g2, g3, g4⟩ := processSection_ok _ _ _ _ _ hps
      obtain ⟨k1, k2, k3⟩ := ih st1 st' h
      refine ⟨?_, ?_, ?_⟩ <;> simp <;> omega

/-- The section loop only appends shaped records. -/
theorem processSections_entries (net : Net) (soup : Soup) :
    ∀ (l : List String) (st st' : RunState) (r : Option PyErr),
      processSections net soup l st = (st', r) →
      ∀ e ∈ st'.log_entries, e ∈ st.log_entries ∨ entryShape e := by
  intro l
  induction l with
  | nil =>
    intro st st' r h
    rw [processSections] at h
    simp at h
    obtain ⟨h1, -⟩ := h
    subst h1
    intro e he
    exact Or.inl he
  | cons s rest ih =>
    intro st st' r h
    rw [processSections] at h
    rcases hps : processSection net soup s st with ⟨st1, r1⟩
    rw [hps] at h
    cases r1 with
    | some e =>
      simp at h
      obtain ⟨h1, -⟩ := h
      subst h1
      exact processSection_entries _ _ _ _ _ _ hps
    | none =>
      simp at h
      intro e he
      rcases ih st1 st' r h e he with h2 | h2
      · exact processSection_entries _ _ _ _ _ _ hps e h2
      · exact Or.inr h2

/-- A well-formed document under a benign network completes. -/
theorem processSections_benign (net : Net) (soup : Soup) (hb : benignNet net) :
    ∀ (l : List String) (st : RunState),
      (∀ s ∈ l, (soup s).isSome = true ∧
        ∀ r ∈ ((soup s).getD []).drop 1, isOkE (extractRow r) = true) →
      (processSections net soup l st).2 = none := by
  intro l
  induction l with
  | nil => intro st _; rw [processSections]
  | cons s rest ih =>
    intro st hwf
    rw [processSections]
    rcases hps : processSection net soup s st with ⟨st1, r1⟩
    have : r1 = none := by
      obtain ⟨hsp, hrows⟩ := hwf s (by simp)
      have h2 := processSection_benign net soup s st hb hsp hrows
      rw [hps] at h2
      exact h2
    subst this
    exact ih st1 (fun s2 hs2 => hwf s2 (by simp [hs2]))

/-- A completed run implies every visited section was present. -/
theorem processSections_present (net : Net) (soup : Soup) :
    ∀ (l : List String) (st st' : RunState),
      processSections net soup l st = (st', none) →
      ∀ s ∈ l, (soup s).isSome = true := by
  intro l
  induction l with
  | nil => intro st st' h s hs; simp at hs
  | cons s0 rest ih =>
    intro st st' h s hs
    rw [processSections] at h
    rcases hps : processSection net soup s0 st with ⟨st1, r1⟩
    rw [hps] at h
    cases r1 with
    | some e => simp at h
    | none =>
      simp at h
      rcases List.mem_cons.mp hs with hs2 | hs2
      · subst hs2
        exact (processSection_ok _ _ _ _ _ hps).1
      · exact ih st1 st' h s hs2

/-! ## Parser lemmas -/

/-- A succeeding extraction yields a value. -/
theorem isOk_exists {α : Type} (x : Except PyErr α) (h : isOkE x = true) :
    ∃ v, x = .ok v := by
  cases x with
  | ok v => exact ⟨v, rfl⟩
  | error e => simp [isOkE] at h

/-- On extractable rows the row parser returns one entry per row, in order. -/
theorem parseRows_ok (sec : String) :
    ∀ rows : List Row, (∀ r ∈ rows, isOkE (extractRow r) = true) →
      parseRows sec rows = .ok (rows.filterMap (entryOfRow sec)) ∧
      (rows.filterMap (entryOfRow sec)).length = rows.length := by
  intro rows
  induction rows with
  | nil => intro _; exact ⟨rfl, rfl⟩
  | cons r rs ih =>
    intro hok
    obtain ⟨q, hext⟩ := isOk_exists _ (hok r (by simp))
    obtain ⟨v, sz, u, m⟩ := q
    obtain ⟨ih1, ih2⟩ := ih (fun r2 hr2 => hok r2 (by simp [hr2]))
    constructor
    · rw [parseRows, hext, ih1]
      simp only [List.filterMap_cons, entryOfRow, hext]
      rfl
    · simp [List.filterMap_cons, entryOfRow, hext, ih2]

/-- Unfolding of the schema check into its universal form. -/
theorem wellFormed_forall (soup : Soup) (h : wellFormed soup) :
    ∀ s ∈ sections, (soup s).isSome = true ∧
      ∀ r ∈ ((soup s).getD []).drop 1, isOkE (extractRow r) = true := by
  intro s hs
  have h2 := h
  simp only [wellFormed, wellFormedB, List.all_eq_true, Bool.and_eq_true] at h2
  have h3 := h2 s hs
  exact ⟨h3.1, h3.2⟩

/-- On a well-formed document the section parser concatenates the\nper-section entries in order, one entry per data row. -/
theorem parseSections_ok (soup : Soup) :
    ∀ l : List String,
      (∀ s ∈ l, (soup s).isSome = true ∧
        ∀ r ∈ ((soup s).getD []).drop 1, isOkE (extractRow r) = true) →
      parseSections soup l =
        .ok (l.flatMap fun s =>
          (((soup s).getD []).drop 1).filterMap (entryOfRow s)) ∧
      (l.flatMap fun s =>
          (((soup s).getD []).drop 1).filterMap (entryOfRow s)).length =
        (l.map (rowsLen soup)).sum := by
  intro l
  induction l with
  | nil => intro _; exact ⟨rfl, rfl⟩
  | cons s rest ih =>
    intro hwf
    obtain ⟨hsp, hrows⟩ := hwf s (by simp)
    obtain ⟨tbl, htbl⟩ := Option.isSome_iff_exists.mp hsp
    obtain ⟨ih1, ih2⟩ := ih (fun s2 hs2 => hwf s2 (by simp [hs2]))
    have hrows2 : ∀ r ∈ tbl.drop 1, isOkE (extractRow r) = true := by
      intro r hr
      apply hrows
      rw [htbl]
      simpa using hr
    obtain ⟨p1, p2⟩ := parseRows_ok s (tbl.drop 1) hrows2
    constructor
    · rw [parseSections]
      simp only [parseSection, htbl, Option.getD_some, List.flatMap_cons]
      rw [p1]
      simp only [ih1]
      rfl
    · simp only [List.flatMap_cons, List.length_append, List.map_cons,
        List.sum_cons, htbl, Option.getD_some]
      rw [p2, ih2, rowsLen, htbl]
      simp

/-! ## The claims -/

/-- C10: when the measured elapsed time is zero, the average-speed
computation of line 131 returns the sentinel 0 instead of dividing. -/
theorem c10_zero_elapsed_speed_sentinel (wrote : ℚ) :
    average_speed_calc wrote 0 = 0 := by
  simp [average_speed_calc]

/-- Witness for C10 at a concrete byte count. -/
theorem c10_zero_elapsed_speed_sentinel_witness :
    average_speed_calc 1000 0 = 0 :=
  c10_zero_elapsed_speed_sentinel 1000

/-- C5: against a server failing every attempt, `download_with_retries`
returns `None` (not an exception) after exactly `retries` attempts with
exactly `retries - 1` inter-attempt sleeps of `delay` seconds, reporting
the failure on the logging channel; if the first `N < retries` attempts
fail and attempt `N` succeeds, it returns that response. -/
theorem c5_retry_semantics (net : Net) (url : String) (retries delay N : Nat)
    (hN : N ≤ retries) (hfail : ∀ n, n < N → isFailA (net url n) = true) :
    (N = retries → 1 ≤ retries →
      (download_with_retries net url retries delay).result = none ∧
      (download_with_retries net url retries delay).attempts = retries ∧
      (download_with_retries net url retries delay).sleeps =
        List.replicate (retries - 1) delay ∧
      LogEvent.error "Max retries reached. Skipping this file." ∈
        (download_with_retries net url retries delay).logs) ∧
    (∀ r : Response, N < retries → net url N = .ok r →
      (download_with_retries net url retries delay).result = some r ∧
      (download_with_retries net url retries delay).attempts = N + 1 ∧
      (download_with_retries net url retries delay).sleeps =
        List.replicate N delay) := by
  constructor
  · intro hNr h1
    subst hNr
    rw [download_with_retries]
    exact fetchAttempts_allFail net url N delay hfail N 0 (by omega) (by omega)
  · intro r hNr hok
    rw [download_with_retries]
    have := fetchAttempts_succeedAt net url retries delay N r hfail hok hNr
      retries 0 (by omega) (by omega)
    simpa using this

/-- Witness for C5 at a concretely always-failing network. -/
theorem c5_retry_semantics_witness :
    (download_with_retries netFail "u" 3 5).result = none ∧
    (download_with_retries netFail "u" 3 5).attempts = 3 ∧
    (download_with_retries netFail "u" 3 5).sleeps = List.replicate 2 5 ∧
    LogEvent.error "Max retries reached. Skipping this file." ∈
      (download_with_retries netFail "u" 3 5).logs :=
  (c5_retry_semantics netFail "u" 3 5 3 (le_refl 3) (fun n _ => rfl)).1
    rfl (by omega)

/-- C6: on schema-conforming markup, the parse yields exactly one entry per
data row across the four tables (header rows excluded), ordered
section-major in the fixed declared order and row-minor in document order. -/
theorem c6_parse_count_and_order (soup : Soup) (h : wellFormed soup) :
    parseCatalog soup =
      .ok (sections.flatMap fun s =>
        (((soup s).getD []).drop 1).filterMap (entryOfRow s)) ∧
    (sections.flatMap fun s =>
        (((soup s).getD []).drop 1).filterMap (entryOfRow s)).length =
      (sections.map (rowsLen soup)).sum := by
  have h2 := parseSections_ok soup sections (wellFormed_forall soup h)
  exact ⟨h2.1, h2.2⟩

/-- Witness for C6 at a concrete well-formed document. -/
theorem c6_parse_count_and_order_witness :
    parseCatalog soupOk =
      .ok (sections.flatMap fun s =>
        (((soupOk s).getD []).drop 1).filterMap (entryOfRow s)) ∧
    (sections.flatMap fun s =>
        (((soupOk s).getD []).drop 1).filterMap (entryOfRow s)).length =
      (sections.map (rowsLen soupOk)).sum :=
  c6_parse_count_and_order soupOk (by decide)

/-- C8: the run is a pure function of the document and the network
behaviour, so two runs with identical inputs produce identical outcomes,
in particular identical log-entry sequences (ordering and status). -/
theorem c8_deterministic_run (soup1 soup2 : Soup) (net1 net2 : Net)
    (hsoup : ∀ s, soup1 s = soup2 s) (hnet : ∀ u n, net1 u n = net2 u n) :
    download_firmwares soup1 net1 = download_firmwares soup2 net2 ∧
    (download_firmwares soup1 net1).1.log_entries =
      (download_firmwares soup2 net2).1.log_entries := by
  have h1 : soup1 = soup2 := funext hsoup
  have h2 : net1 = net2 := funext fun u => funext fun n => hnet u n
  subst h1
  subst h2
  exact ⟨rfl, rfl⟩

/-- Witness for C8 at concrete equal inputs. -/
theorem c8_deterministic_run_witness :
    download_firmwares soupOk netOk = download_firmwares soupOk netOk ∧
    (download_firmwares soupOk netOk).1.log_entries =
      (download_firmwares soupOk netOk).1.log_entries :=
  c8_deterministic_run soupOk soupOk netOk netOk (fun _ => rfl) (fun _ _ => rfl)

/-- C9: whenever a run completes (reaches the report-writing code), the
rendered total equals successes plus failures, and that sum equals the
number of outcome rows in the report. -/
theorem c9_counts_consistent (soup : Soup) (net : Net)
    (h : (download_firmwares soup net).2 = none) :
    (renderReport (download_firmwares soup net).1).totalFiles =
      (renderReport (download_firmwares soup net).1).successCount +
        (renderReport (download_firmwares soup net).1).failureCount ∧
    (renderReport (download_firmwares soup net).1).successCount +
      (renderReport (download_firmwares soup net).1).failureCount =
      (renderReport (download_firmwares soup net).1).rows.length := by
  have heq : processSections net soup sections initState =
      ((download_firmwares soup net).1, none) := Prod.ext rfl h
  obtain ⟨k1, k2, k3⟩ := processSections_ok net soup sections initState
    (download_firmwares soup net).1 heq
  simp [initState] at k1 k2 k3
  simp [renderReport]
  omega

/-- Witness for C9 at a concrete completing run. -/
theorem c9_counts_consistent_witness :
    (renderReport (download_firmwares soupOk netOk).1).totalFiles =
      (renderReport (download_firmwares soupOk netOk).1).successCount +
        (renderReport (download_firmwares soupOk netOk).1).failureCount ∧
    (renderReport (download_firmwares soupOk netOk).1).successCount +
      (renderReport (download_firmwares soupOk netOk).1).failureCount =
      (renderReport (download_firmwares soupOk netOk).1).rows.length :=
  c9_counts_consistent soupOk netOk (by decide)

/-- C1 (code bug): at the specification scenario (one retail entry, version
`4.91`, checksum `abc123`, fetch succeeding with 1000 bytes) the run
completes, the payload is written to the fixed-name payload file in the
per-(section, version) directory, the checksum string is recorded in the
run-log entry -- but no checksum sidecar file is ever written: the listed
writes are the only filesystem effects of the run, contradicting the
module docstring ("creates a text file with the MD5 hash for each
firmware"). -/
theorem c1_payload_written_but_no_checksum_sidecar :
    (download_firmwares soupOk netOk).2 = none ∧
    (download_firmwares soupOk netOk).1.success_count = 1 ∧
    (download_firmwares soupOk netOk).1.fsWrites =
      [.mkdir ["Retail_Firmwares"], .mkdir ["Retail_Firmwares", "4.91"],
       .writeFile ["Retail_Firmwares", "4.91", "PS3UPDAT.PUP"] 1000,
       .mkdir ["Testkit_Firmwares"], .mkdir ["PS3_GEX_FW"],
       .mkdir ["DECR_Firmware"]] ∧
    (download_firmwares soupOk netOk).1.log_entries.map
      (fun e => lookupVal e "md5") = [some (.str "abc123")] := by
  decide

/-- C2 counterexample: with the first section present (one entry) and a
later required section missing, the entry of the first section is fetched
and recorded before the structural error is raised -- the error is neither
raised before network activity nor does parsing yield zero entries. -/
theorem c2_missing_section_after_downloads_counterexample :
    (download_firmwares soupMissing netOk).2 = some .attributeError ∧
    (download_firmwares soupMissing netOk).1.fetchedUrls =
      ["http://x/fw.pup"] ∧
    (download_firmwares soupMissing netOk).1.log_entries.length = 1 := by
  decide

/-- C2 (amended): a missing required section always aborts the run with an
error (an `AttributeError`, no section is silently skipped), and when the
missing section is the first one in the declared order the error is raised
before any network download is attempted and before any entry is
recorded. -/
theorem c2_missing_section_aborts (soup : Soup) (net : Net) (s : String)
    (hs : s ∈ sections) (hmiss : soup s = none) :
    (download_firmwares soup net).2 ≠ none ∧
    (soup "Retail Firmwares" = none →
      (download_firmwares soup net).2 = some .attributeError ∧
      (download_firmwares soup net).1.fetchedUrls = [] ∧
      (download_firmwares soup net).1.log_entries = []) := by
  constructor
  · intro hnone
    have heq : processSections net soup sections initState =
        ((download_firmwares soup net).1, none) := Prod.ext rfl hnone
    have h2 := processSections_present net soup sections initState
      (download_firmwares soup net).1 heq s hs
    rw [hmiss] at h2
    simp at h2
  · intro hfirst
    have hrun : download_firmwares soup net =
        (addFs initState (.mkdir [sectionDirName "Retail Firmwares"]),
          some .attributeError) := by
      rw [download_firmwares, sections, processSections]
      simp [processSection, hfirst]
    rw [hrun]
    exact ⟨rfl, rfl, rfl⟩

/-- Witness for C2 (amended) at a document with no sections. -/
theorem c2_missing_section_aborts_witness :
    (download_firmwares soupNone netFail).2 ≠ none ∧
    (soupNone "Retail Firmwares" = none →
      (download_firmwares soupNone netFail).2 = some .attributeError ∧
      (download_firmwares soupNone netFail).1.fetchedUrls = [] ∧
      (download_firmwares soupNone netFail).1.log_entries = []) :=
  c2_missing_section_aborts soupNone netFail "Retail Firmwares"
    (by decide) rfl

/-- C3 (code bug): a successful fetch whose response carries no
content-length header makes the per-chunk progress computation of line 123
divide `50 * wrote` by `total_size = 0`: the first chunk raises
`ZeroDivisionError` and the whole run aborts, instead of the transfer
completing with an indeterminate progress fraction. -/
theorem c3_missing_content_length_zero_division :
    iterChunks 0 0 none [10] = (10, none, some .zeroDivision) ∧
    (download_firmwares soupOk netNoLen).2 = some .zeroDivision := by
  decide

/-- C4 counterexample: a catalog with two entries and a network whose
transfer breaks mid-stream while the first body is being read: the failure
is not contained to the first entry -- the run aborts with zero
`TransferOutcome` records instead of recording one outcome per entry and
continuing with the second entry. -/
theorem c4_midstream_failure_aborts_run_counterexample :
    (download_firmwares soupTwo netMid).1.total_files = 2 ∧
    (download_firmwares soupTwo netMid).2 =
      some (.streamError "connection broken while reading body") ∧
    (download_firmwares soupTwo netMid).1.log_entries = [] := by
  decide

/-- C4 (amended): failures at request level (connection error or bad
status on any attempt, in any pattern across entries) are contained to
their entry: the run always completes and records exactly one outcome per
catalog entry. Only mid-stream body failures (and the progress-bar
division) escape and abort the run. -/
theorem c4_request_level_failures_contained (soup : Soup) (net : Net)
    (hwf : wellFormed soup) (hb : benignNet net) :
    (download_firmwares soup net).2 = none ∧
    (download_firmwares soup net).1.log_entries.length = totalRows soup := by
  have hcomplete : (download_firmwares soup net).2 = none :=
    processSections_benign net soup hb sections initState
      (wellFormed_forall soup hwf)
  refine ⟨hcomplete, ?_⟩
  have heq : processSections net soup sections initState =
      ((download_firmwares soup net).1, none) := Prod.ext rfl hcomplete
  obtain ⟨-, -, k3⟩ := processSections_ok net soup sections initState
    (download_firmwares soup net).1 heq
  simp [initState] at k3
  rw [totalRows]
  exact k3

/-- Witness for C4 (amended): two entries, every request failing, run\ncompletes with one Failed outcome per entry. -/
theorem c4_request_level_failures_contained_witness :
    (download_firmwares soupTwo netFail).2 = none ∧
    (download_firmwares soupTwo netFail).1.log_entries.length =
      totalRows soupTwo :=
  c4_request_level_failures_contained soupTwo netFail (by decide)
    (fun u n r h => by simp [netFail] at h)

/-- C7 counterexample: a recorded Success outcome carries no byte-count
metric at all -- its keys are exactly the eight dict keys of lines
133-142, none of which is a bytes-written field -- so the metrics are not
"present exactly when the status is Success" as claimed. -/
theorem c7_no_bytes_metric_counterexample :
    (download_firmwares soupOk netOk).2 = none ∧
    (download_firmwares soupOk netOk).1.log_entries.map
      (fun e => lookupVal e "status") = [some (.str "success")] ∧
    (download_firmwares soupOk netOk).1.log_entries.map
      (fun e => lookupVal e "bytes_written") = [none] ∧
    (download_firmwares soupOk netOk).1.log_entries.map
      (fun e => e.map Prod.fst) =
      [["version", "section", "status", "url", "size", "md5",
        "time_taken", "average_speed"]] := by
  decide

/-- C7 (amended): in every recorded outcome the status is `success` or
`failed`; `time_taken` and `average_speed` are numbers exactly when the
status is `success` and are the string sentinel `N/A` when it is `failed`;
no bytes-written metric is recorded in the outcome at all. -/
theorem c7_metrics_numeric_iff_success (soup : Soup) (net : Net)
    (e : LogEntry)
    (he : e ∈ (download_firmwares soup net).1.log_entries) :
    (lookupVal e "status" = some (.str "success") ∨
      lookupVal e "status" = some (.str "failed")) ∧
    ((∃ q, lookupVal e "time_taken" = some (.num q)) ↔
      lookupVal e "status" = some (.str "success")) ∧
    ((∃ q, lookupVal e "average_speed" = some (.num q)) ↔
      lookupVal e "status" = some (.str "success")) ∧
    (lookupVal e "status" = some (.str "failed") →
      lookupVal e "time_taken" = some (.str "N/A") ∧
      lookupVal e "average_speed" = some (.str "N/A")) ∧
    lookupVal e "bytes_written" = none := by
  have heq : processSections net soup sections initState =
      ((download_firmwares soup net).1, (download_firmwares soup net).2) := rfl
  have hshape : entryShape e := by
    rcases processSections_entries net soup sections initState
      (download_firmwares soup net).1 (download_firmwares soup net).2 heq
      e he with h2 | h2
    · simp [initState] at h2
    · exact h2
  rcases hshape with ⟨v, s2, u, z, m, t, a, rfl⟩ | ⟨v, s2, u, z, m, rfl⟩ <;>
    simp [mkSuccessEntry, mkFailedEntry, lookupVal]

/-- Witness for C7 (amended) at a concrete recorded failed outcome. -/
theorem c7_metrics_numeric_iff_success_witness :
    lookupVal (mkFailedEntry "4.91" "Retail Firmwares" "http://x/fw.pup"
      "200 MB" "abc123") "bytes_written" = none ∧
    lookupVal (mkFailedEntry "4.91" "Retail Firmwares" "http://x/fw.pup"
      "200 MB" "abc123") "time_taken" = some (.str "N/A") := by
  have h := c7_metrics_numeric_iff_success soupOk netFail
    (mkFailedEntry "4.91" "Retail Firmwares" "http://x/fw.pup" "200 MB"
      "abc123") (by decide)
  exact ⟨h.2.2.2.2, (h.2.2.2.1 (by decide)).1⟩

end PS3FW
